import Mathlib

/-!
Verification development for the interactive particle-lotus application.

The embedding follows the TypeScript sources:
* `src/components/HandTracker.tsx` (gesture classifier and inference tick,
  lotus particle generator, vertex-shader transform, per-frame state smoother),
* the application root (swipe color selection, configuration record).

Machine floating-point numbers are modelled by exact rationals where the code
is pure rational arithmetic, and by real numbers where the code calls
transcendental functions (sqrt, sin, cos, pow with fractional exponent).
Library functions of three.js and of GLSL that the code calls
(MathUtils.lerp, Color operations, smoothstep, mix, clamp) are modelled
faithfully from their published sources.
-/

namespace Lotus

/-! ## State Smoother (LotusParticles useFrame)

The per-frame update reads the two booleans from the gesture classifier and
moves the two smoothed scalars with `THREE.MathUtils.lerp`, whose definition
is `lerp(x, y, t) = (1 - t) * x + t * y` (no clamping of `t`). -/

/-- three.js `MathUtils.lerp(x, y, t) = (1 - t) * x + t * y`. -/
def lerpQ (x y t : ℚ) : ℚ := (1 - t) * x + t * y

/-- Target of the bloom scalar: `isBlooming ? 1.0 : 0.0`. -/
def bloomTarget (isBlooming : Bool) : ℚ := if isBlooming then 1 else 0

/-- Target of the form scalar: `isHandPresent ? 1.0 : 0.0`. -/
def formTarget (isHandPresent : Bool) : ℚ := if isHandPresent then 1 else 0

/-- One frame of the bloom smoother:
`lerp(currentBloom, targetBloom, delta * 2.0)`. -/
def bloomStep (current : ℚ) (isBlooming : Bool) (delta : ℚ) : ℚ :=
  lerpQ current (bloomTarget isBlooming) (delta * 2)

/-- One frame of the form smoother:
`lerp(currentForm, targetForm, delta * 1.5)`. -/
def formStep (current : ℚ) (isHandPresent : Bool) (delta : ℚ) : ℚ :=
  lerpQ current (formTarget isHandPresent) (delta * (3/2))

/-- Modelled from the spec: the update rule the spec states for the bloom
scalar, `bloomAmount += (target_bloom - bloomAmount) * min(1, dt * 2.0)`,
with the interpolation factor clamped at 1.  Present only to be compared
with `bloomStep`, which is the rule the code actually implements. -/
def bloomStepSpec (current : ℚ) (isBlooming : Bool) (delta : ℚ) : ℚ :=
  current + (bloomTarget isBlooming - current) * min 1 (delta * 2)

/-! ## Gesture classifier (HandTracker predict) -/

/-- One hand landmark in normalized image coordinates. -/
structure Landmark where
  x : ℚ
  y : ℚ
  z : ℚ
deriving DecidableEq

/-- A full hand: 21 landmarks indexed by anatomical joint index. -/
def Hand : Type := Fin 21 → Landmark

/-- Squared Euclidean distance between two landmarks: the argument of the
`Math.sqrt` call in `dist`. -/
def sqDist (p q : Landmark) : ℚ :=
  (p.x - q.x) ^ 2 + (p.y - q.y) ^ 2 + (p.z - q.z) ^ 2

/-- The classifier distance
`Math.sqrt((p1.x-p2.x)^2 + (p1.y-p2.y)^2 + (p1.z-p2.z)^2)`. -/
noncomputable def dist3 (p q : Landmark) : ℝ := Real.sqrt ((sqDist p q : ℚ) : ℝ)

/-- The array `fingers = [8, 12, 16, 20]`: index, middle, ring, pinky tips. -/
def fingerTips : Fin 4 → Fin 21
  | 0 => 8
  | 1 => 12
  | 2 => 16
  | 3 => 20

/-- The array `pips = [6, 10, 14, 18]`: the corresponding PIP joints. -/
def fingerPips : Fin 4 → Fin 21
  | 0 => 6
  | 1 => 10
  | 2 => 14
  | 3 => 18

/-- Finger `i` counts as extended when the tip is further from the wrist
(landmark 0) than the PIP joint is: `dTip > dPip`. -/
def fingerExtended (lm : Hand) (i : Fin 4) : Prop :=
  dist3 (lm 0) (lm (fingerTips i)) > dist3 (lm 0) (lm (fingerPips i))

open Classical in
/-- The loop accumulating `extendedCount++` over the four tracked fingers. -/
noncomputable def extendedCount (lm : Hand) : ℕ :=
  ∑ i : Fin 4, if fingerExtended lm i then 1 else 0

/-- The decision `isHandOpen = extendedCount >= 3`. -/
def isHandOpen (lm : Hand) : Prop := 3 ≤ extendedCount lm

/-! ## Inference tick (HandTracker predict): timestamp-gated re-inference -/

/-- The mutable state the `predict` callback reads and writes:
`lastVideoTimeRef`, `handDetected`, and the two signals last pushed through
`onPresenceChange` / `onBloomChange`. -/
structure TrackerState where
  lastVideoTime : ℚ
  handDetected : Bool
  present : Bool
  blooming : Bool
deriving DecidableEq

/-- One tick of input: whether the landmarker is loaded and the video has
`readyState >= 2`, the current video timestamp, and what the detector would
report on this frame (`none` = no hand). -/
structure FrameInput where
  ready : Bool
  currentTime : ℚ
  detection : Option Hand

open Classical in
/-- One run of the `predict` callback.  Returns the new state together with
a flag recording whether `detectForVideo` was invoked on this tick. -/
noncomputable def predictStep (s : TrackerState) (inp : FrameInput) :
    TrackerState × Bool :=
  if inp.ready then
    if inp.currentTime ≠ s.lastVideoTime then
      match inp.detection with
      | some lm =>
          (⟨inp.currentTime, true, true, if isHandOpen lm then true else false⟩,
            true)
      | none => (⟨inp.currentTime, false, false, false⟩, true)
    else (s, false)
  else (s, false)

/-! ## Vertex shader pieces (LotusShaderMaterial.vertexShader) -/

/-- GLSL `clamp(x, lo, hi) = max(lo, min(hi, x))`. -/
noncomputable def clampR (x lo hi : ℝ) : ℝ := max lo (min hi x)

/-- GLSL `smoothstep(0.0, 1.0, x)`: with `t = clamp(x, 0, 1)` the result is
`t * t * (3 - 2 * t)`. -/
noncomputable def smoothstepR (x : ℝ) : ℝ :=
  clampR x 0 1 * clampR x 0 1 * (3 - 2 * clampR x 0 1)

/-- GLSL `mix(x, y, a) = x * (1 - a) + y * a`. -/
noncomputable def mixR (x y a : ℝ) : ℝ := x * (1 - a) + y * a

/-- The shader line `float cycle = smoothstep(0.0, 1.0, uBloomState);`. -/
noncomputable def cycleOf (uBloomState : ℝ) : ℝ := smoothstepR uBloomState

/-- The petal opening angle of the shader:
`mix(targetAngle * 0.15, targetAngle, cycle)` where `targetAngle = aInfo.y`. -/
noncomputable def currentAngle (targetAngle uBloomState : ℝ) : ℝ :=
  mixR (targetAngle * 0.15) targetAngle (cycleOf uBloomState)

/-- The shader aura test `bool isAura = aInfo.y < -0.5;`. -/
def isAuraInfo (infoY : ℝ) : Prop := infoY < -0.5

/-! ## Petal surface function (calculatePetalShape) -/

/-- The function `calculatePetalShape(u, v, layerIndex, totalLayers, target)`: writes the
point `(width, height, depth)` into `target` and returns `maxOpenAngle`.
Here both are returned as a pair (point, angle). -/
noncomputable def calculatePetalShape (u v : ℝ) (layerIndex totalLayers : ℕ) :
    (ℝ × ℝ × ℝ) × ℝ :=
  let layerRatio : ℝ := (layerIndex : ℝ) / (totalLayers : ℝ)
  let scale : ℝ := 2.5 + layerRatio * 4
  let widthProfile : ℝ := Real.sin (u * Real.pi)
  let taper : ℝ := 1 - u ^ (3 : ℕ)
  let width : ℝ := (v - 0.5) * widthProfile * taper * scale * 0.9
  let height : ℝ := u * scale * 2.2
  let sideCurl : ℝ := (|v - 0.5| * 2) ^ (2 : ℕ) * u * 1.5
  let lengthCurve : ℝ := Real.sin (u * Real.pi * 0.4) * 1.0
  let depth : ℝ := (sideCurl + lengthCurve) * scale * 0.3
  let maxOpenAngle : ℝ := 0.2 + layerRatio ^ (1.5 : ℝ) * 1.5
  ((width, height, depth), maxOpenAngle)

/-! ## three.js color model

The generator manipulates `THREE.Color` values through `offsetHSL`, `lerp`
and `clone`.  These library operations are modelled from the three.js
source (classic behavior, without the later color-management layer, which
this repository never enables for these values). -/

/-- An RGB color with components in the unit interval (as three.js stores
them, one float per channel). -/
structure ColorQ where
  r : ℚ
  g : ℚ
  b : ℚ
deriving DecidableEq

/-- three.js `clamp` on rationals. -/
def clampQ (x lo hi : ℚ) : ℚ := max lo (min hi x)

/-- three.js internal `hue2rgb(p, q, t)`. -/
def hue2rgb (p q t : ℚ) : ℚ :=
  let t1 := if t < 0 then t + 1 else t
  let t2 := if t1 > 1 then t1 - 1 else t1
  if t2 < 1/6 then p + (q - p) * 6 * t2
  else if t2 < 1/2 then q
  else if t2 < 2/3 then p + (q - p) * 6 * (2/3 - t2)
  else p

/-- three.js `Color.setHSL(h, s, l)`: `h` is reduced with
`euclideanModulo(h, 1)` (the fractional part), `s` and `l` are clamped. -/
def setHSL (h s l : ℚ) : ColorQ :=
  let h1 := Int.fract h
  let s1 := clampQ s 0 1
  let l1 := clampQ l 0 1
  if s1 = 0 then ⟨l1, l1, l1⟩
  else
    let p := if l1 ≤ 1/2 then l1 * (1 + s1) else l1 + s1 - l1 * s1
    let q := 2 * l1 - p
    ⟨hue2rgb q p (h1 + 1/3), hue2rgb q p h1, hue2rgb q p (h1 - 1/3)⟩

/-- three.js `Color.getHSL`: returns `(h, s, l)`. -/
def getHSL (c : ColorQ) : ℚ × ℚ × ℚ :=
  let mx := max c.r (max c.g c.b)
  let mn := min c.r (min c.g c.b)
  let l := (mn + mx) / 2
  if mn = mx then (0, 0, l)
  else
    let d := mx - mn
    let s := if l ≤ 1/2 then d / (mx + mn) else d / (2 - mx - mn)
    let hue :=
      if mx = c.r then (c.g - c.b) / d + (if c.g < c.b then 6 else 0)
      else if mx = c.g then (c.b - c.r) / d + 2
      else (c.r - c.g) / d + 4
    (hue / 6, s, l)

/-- three.js `Color.offsetHSL(dh, ds, dl)`. -/
def offsetHSL (c : ColorQ) (dh ds dl : ℚ) : ColorQ :=
  let hsl := getHSL c
  setHSL (hsl.1 + dh) (hsl.2.1 + ds) (hsl.2.2 + dl)

/-- three.js `Color.lerp(color, alpha)`: each channel moves by
`(color.channel - this.channel) * alpha`. -/
def colorLerp (c target : ColorQ) (alpha : ℚ) : ColorQ :=
  ⟨c.r + (target.r - c.r) * alpha,
   c.g + (target.g - c.g) * alpha,
   c.b + (target.b - c.b) * alpha⟩

/-- The gold accent constructed from the hex literal ffaa00. -/
def colGoldC : ColorQ := ⟨1, 170/255, 0⟩

/-- The tip highlight constructed from the hex literal ffffff. -/
def colTipC : ColorQ := ⟨1, 1, 1⟩

/-- The tone `colDeep = baseCol.clone(); colDeep.offsetHSL(0, 0, -0.4)`. -/
def colDeepOf (base : ColorQ) : ColorQ := offsetHSL base 0 0 (-(2/5))

/-- The tone `colLight = baseCol.clone(); colLight.offsetHSL(0, -0.2, 0.3)`. -/
def colLightOf (base : ColorQ) : ColorQ := offsetHSL base 0 (-(1/5)) (3/10)

/-- The petal color-mixing block of the generator, for jittered coordinates
`u`, `v` (already clamped to `[0,1]`), the layer index and the active base
color. -/
def mixColorFor (u v : ℚ) (layerIdx : ℕ) (base : ColorQ) : ColorQ :=
  let colDeep := colDeepOf base
  let colMain := base
  let colLight := colLightOf base
  let c0 := colDeep
  if layerIdx = 0 ∧ u < 3/10 then colorLerp c0 colGoldC (4/5)
  else
    let c1 :=
      if u < 1/5 then colorLerp c0 colDeep (4/5)
      else if u < 3/5 then colorLerp c0 colMain u
      else colorLerp (colorLerp c0 colMain (1/5)) colLight ((u - 1/2) * (5/2))
    let c2 := if 23/25 < u then colorLerp c1 colTipC (4/5) else c1
    if |v - 1/2| < 1/20 then colorLerp c2 colLight (3/10) else c2

/-! ## Geometry generator (LotusParticles useMemo)

Randomness: the generator draws every random value with `Math.random()`.
It is modelled by a stream `rand : ℕ → ℚ` of values, indexed in the order
the code consumes them.  Every petal particle consumes exactly five values
(jitter of `u`, jitter of `v`, three chaos coordinates) and every aura
particle exactly seven (radius, angle, height, three chaos coordinates,
color choice), so the running consumption index of each draw is a closed
function of the loop indices, used below. -/

/-- The configuration record (`LotusConfig` in `src/types`). -/
structure LotusConfig where
  petalCount : ℕ
  layers : ℕ
  particleSize : ℚ
  rotationSpeed : ℚ
  bloomIntensity : ℚ

/-- One entry of the hardcoded layer table. -/
structure LayerDef where
  count : ℕ
  offset : ℚ
deriving DecidableEq

/-- The hardcoded six-layer table of the generator. -/
def layersDef : List LayerDef :=
  [⟨5, 0⟩, ⟨8, 1/2⟩, ⟨12, 0⟩, ⟨18, 3/10⟩, ⟨24, 1/10⟩, ⟨32, 2/5⟩]

/-- The count `totalPetals = layersDef.reduce((sum, l) => sum + l.count, 0)`. -/
def totalPetals : ℕ := (layersDef.map (·.count)).sum

/-- The count `particlesPerPetal = Math.floor(totalParticles / totalPetals)`. -/
def particlesPerPetal (totalParticles : ℕ) : ℕ := totalParticles / totalPetals

/-- The count `pointsPerVein = Math.floor(particlesPerPetal / veins)` with `veins = 7`. -/
def pointsPerVein (totalParticles : ℕ) : ℕ := particlesPerPetal totalParticles / 7

/-- Number of petals emitted before layer `L` starts. -/
def petalsBefore (L : ℕ) : ℕ := ((layersDef.take L).map (·.count)).sum

/-- Position of petal particle `(L, p, vIdx, i)` in emission order. -/
def petalParticleIndex (n L p vIdx i : ℕ) : ℕ :=
  ((petalsBefore L + p) * 7 + vIdx) * pointsPerVein n + i

/-- Total number of petal particles: every one of the 99 petals emits
`7 * pointsPerVein` points. -/
def numPetalParticles (n : ℕ) : ℕ := totalPetals * (7 * pointsPerVein n)

/-- One generated particle: formed position, the `aInfo` triple
`(angleAroundCenter, maxOpenAngle, layerYOffset)`, the chaos position
`aRandomPos`, and the color. -/
structure Particle where
  pos : ℝ × ℝ × ℝ
  info : ℝ × ℝ × ℝ
  chaos : ℚ × ℚ × ℚ
  color : ColorQ

/-- The body of the innermost generator loop for petal particle
`(L, p, vIdx, i)` of a generation with particle target `n`. -/
noncomputable def mkPetalParticle (n : ℕ) (base : ColorQ) (rand : ℕ → ℚ)
    (L p vIdx i : ℕ) : Particle :=
  let ppv := pointsPerVein n
  let k := 5 * petalParticleIndex n L p vIdx i
  let layer := layersDef.getD L ⟨0, 0⟩
  let petalsInLayer := layer.count
  let angleStep : ℝ := Real.pi * 2 / (petalsInLayer : ℝ)
  let petalRotation : ℝ := (p : ℝ) * angleStep + (layer.offset : ℝ)
  let layerYOffset : ℚ := -((L : ℚ) * (1/4))
  let vBase : ℚ := ((vIdx : ℚ) + 1/2) / 7
  let u0 : ℚ := (i : ℚ) / (ppv : ℚ) + (rand k - 1/2) * (1/50)
  let v0 : ℚ := vBase + (rand (k + 1) - 1/2) * (1/20)
  let u : ℚ := max 0 (min 1 u0)
  let v : ℚ := max 0 (min 1 v0)
  let shape := calculatePetalShape (u : ℝ) (v : ℝ) L layersDef.length
  { pos := shape.1
    info := (petalRotation, shape.2, (layerYOffset : ℝ))
    chaos := ((rand (k + 2) - 1/2) * 30,
              (rand (k + 3) - 1/2) * 20,
              (rand (k + 4) - 1/2) * 20)
    color := mixColorFor u v L base }

/-- The constant `auraCount = 8000`. -/
def auraCount : ℕ := 8000

/-- The body of the aura loop for aura particle `i`. -/
noncomputable def mkAuraParticle (n : ℕ) (base : ColorQ) (rand : ℕ → ℚ)
    (i : ℕ) : Particle :=
  let k := 5 * numPetalParticles n + 7 * i
  let r : ℚ := 2 + rand k * 8
  let theta : ℝ := (rand (k + 1) : ℝ) * Real.pi * 2
  let y : ℚ := (rand (k + 2) - 1/2) * 10
  let colMain := base
  let colLight := colLightOf base
  let auraCol := if rand (k + 6) > 1/2 then colLight else colMain
  { pos := ((r : ℝ) * Real.cos theta, (y : ℝ), (r : ℝ) * Real.sin theta)
    info := (0, -1, 0)
    chaos := ((rand (k + 3) - 1/2) * 40,
              (rand (k + 4) - 1/2) * 30,
              (rand (k + 5) - 1/2) * 40)
    color := ⟨auraCol.r * (3/5), auraCol.g * (3/5), auraCol.b * (3/5)⟩ }

/-- The petal part of the generator: `layersDef.forEach((layer, layerIdx))`,
then the petal, vein and point loops. -/
noncomputable def petalParticles (n : ℕ) (base : ColorQ) (rand : ℕ → ℚ) :
    List Particle :=
  (List.range layersDef.length).flatMap fun L =>
    (List.range (layersDef.getD L ⟨0, 0⟩).count).flatMap fun p =>
      (List.range 7).flatMap fun vIdx =>
        (List.range (pointsPerVein n)).map fun i =>
          mkPetalParticle n base rand L p vIdx i

/-- The aura part of the generator. -/
noncomputable def auraParticles (n : ℕ) (base : ColorQ) (rand : ℕ → ℚ) :
    List Particle :=
  (List.range auraCount).map (mkAuraParticle n base rand)

/-- The whole generation pass of the `useMemo` body.  Of the configuration
it reads only `config.petalCount` (the particle target). -/
noncomputable def generateParticles (config : LotusConfig) (base : ColorQ)
    (rand : ℕ → ℚ) : List Particle :=
  petalParticles config.petalCount base rand ++
    auraParticles config.petalCount base rand

/-! ## Swipe color selection (App handleSwipe) -/

/-- The fixed palette of the application root. -/
def PALETTE : List String := ["#ffa6c9", "#0088ff", "#ffcc00", "#9900ff"]

/-- The handler `handleSwipe`: filter the palette down to the entries different from the
current color and pick index `Math.floor(random * available.length)`; the
random draw is the parameter `r`.  Out-of-range indexing (which in the
program would produce `undefined`) is modelled as `none`. -/
def handleSwipe (palette : List String) (prev : String) (r : ℚ) :
    Option String :=
  let available := palette.filter (fun c => c ≠ prev)
  let idx : ℤ := ⌊r * (available.length : ℚ)⌋
  if 0 ≤ idx then available[idx.toNat]? else none

/-! ## Concrete fixtures used by witnesses -/

/-- A hand with index, middle and ring extended (tip twice as far from the
wrist as the PIP joint) and the pinky curled: exactly three extended
fingers. -/
def lmOpen3 : Hand := fun j =>
  match j with
  | 8 => ⟨2, 0, 0⟩
  | 12 => ⟨2, 0, 0⟩
  | 16 => ⟨2, 0, 0⟩
  | 6 => ⟨1, 0, 0⟩
  | 10 => ⟨1, 0, 0⟩
  | 14 => ⟨1, 0, 0⟩
  | 20 => ⟨1, 0, 0⟩
  | 18 => ⟨2, 0, 0⟩
  | _ => ⟨0, 0, 0⟩

/-- A hand with only index and middle extended: exactly two extended
fingers. -/
def lmOpen2 : Hand := fun j =>
  match j with
  | 8 => ⟨2, 0, 0⟩
  | 12 => ⟨2, 0, 0⟩
  | 6 => ⟨1, 0, 0⟩
  | 10 => ⟨1, 0, 0⟩
  | 16 => ⟨1, 0, 0⟩
  | 20 => ⟨1, 0, 0⟩
  | 14 => ⟨2, 0, 0⟩
  | 18 => ⟨2, 0, 0⟩
  | _ => ⟨0, 0, 0⟩

/-- The base color `#ffa6c9` of the default palette entry. -/
def base0 : ColorQ := ⟨1, 166/255, 201/255⟩

/-- A fixed random stream for concrete instantiations. -/
def rand0 : ℕ → ℚ := fun _ => 1/2

/-- The startup configuration of the application root. -/
def cfg80a : LotusConfig := ⟨80000, 4, 3/50, 1/10, 3/2⟩

/-- The startup configuration with only the layer-count field changed. -/
def cfg80b : LotusConfig := ⟨80000, 6, 3/50, 1/10, 3/2⟩

/-! ## Helper lemmas -/

/-- A lerp with factor in `[0,1]` lands between its endpoints, on either
side. -/
lemma lerpQ_between (x y t : ℚ) (h0 : 0 ≤ t) (h1 : t ≤ 1) :
    (x ≤ y → x ≤ lerpQ x y t ∧ lerpQ x y t ≤ y) ∧
    (y ≤ x → y ≤ lerpQ x y t ∧ lerpQ x y t ≤ x) := by
  unfold lerpQ
  refine ⟨fun h => ⟨?_, ?_⟩, fun h => ⟨?_, ?_⟩⟩ <;> nlinarith

/-- The bloom and form targets always lie in `[0,1]`. -/
lemma targets_mem (b p : Bool) :
    0 ≤ bloomTarget b ∧ bloomTarget b ≤ 1 ∧
    0 ≤ formTarget p ∧ formTarget p ≤ 1 := by
  cases b <;> cases p <;> norm_num [bloomTarget, formTarget]

/-! ## C1, C2: the per-frame state smoother -/

/-- C1 (counterexample): starting from `bloomAmount = 0` in `[0,1]` with
target 1 and the non-negative elapsed time `delta = 1`, the frame update
produces 2, overshooting the target and leaving the `[0,1]` bounds — so the
update is not overshoot-free for every non-negative elapsed time. -/
theorem bloom_step_overshoot_cex :
    bloomStep 0 true 1 = 2 ∧ ¬ bloomStep 0 true 1 ≤ 1 := by
  norm_num [bloomStep, lerpQ, bloomTarget]

/-- C1 (amended): whenever the elapsed time satisfies `delta * 2 ≤ 1` (which
also forces `delta * 1.5 ≤ 1`), each smoothed scalar moves monotonically
toward its current target without overshooting it and stays inside
`[0,1]`. -/
theorem smoother_monotone_bounded (bloom form dt : ℚ) (b p : Bool)
    (hb0 : 0 ≤ bloom) (hb1 : bloom ≤ 1) (hf0 : 0 ≤ form) (hf1 : form ≤ 1)
    (hdt : 0 ≤ dt) (hrate : dt * 2 ≤ 1) :
    (bloom ≤ bloomTarget b →
      bloom ≤ bloomStep bloom b dt ∧ bloomStep bloom b dt ≤ bloomTarget b) ∧
    (bloomTarget b ≤ bloom →
      bloomTarget b ≤ bloomStep bloom b dt ∧ bloomStep bloom b dt ≤ bloom) ∧
    0 ≤ bloomStep bloom b dt ∧ bloomStep bloom b dt ≤ 1 ∧
    (form ≤ formTarget p →
      form ≤ formStep form p dt ∧ formStep form p dt ≤ formTarget p) ∧
    (formTarget p ≤ form →
      formTarget p ≤ formStep form p dt ∧ formStep form p dt ≤ form) ∧
    0 ≤ formStep form p dt ∧ formStep form p dt ≤ 1 := by
  obtain ⟨htb0, htb1, htf0, htf1⟩ := targets_mem b p
  have hb2 : 0 ≤ dt * 2 := by linarith
  have hf2 : 0 ≤ dt * (3/2) := by linarith
  have hf3 : dt * (3/2) ≤ 1 := by linarith
  have Hb := lerpQ_between bloom (bloomTarget b) (dt * 2) hb2 hrate
  have Hf := lerpQ_between form (formTarget p) (dt * (3/2)) hf2 hf3
  have hbs : bloomStep bloom b dt = lerpQ bloom (bloomTarget b) (dt * 2) := rfl
  have hfs : formStep form p dt = lerpQ form (formTarget p) (dt * (3/2)) := rfl
  rw [hbs, hfs]
  refine ⟨Hb.1, Hb.2, ?_, ?_, Hf.1, Hf.2, ?_, ?_⟩
  · rcases le_total bloom (bloomTarget b) with h | h
    · linarith [(Hb.1 h).1]
    · linarith [(Hb.2 h).1]
  · rcases le_total bloom (bloomTarget b) with h | h
    · linarith [(Hb.1 h).2]
    · linarith [(Hb.2 h).2]
  · rcases le_total form (formTarget p) with h | h
    · linarith [(Hf.1 h).1]
    · linarith [(Hf.2 h).1]
  · rcases le_total form (formTarget p) with h | h
    · linarith [(Hf.1 h).2]
    · linarith [(Hf.2 h).2]

/-- C1 (witness): a concrete frame, bloom and form at 1/2, `delta = 1/4`. -/
theorem smoother_monotone_bounded_witness :
    ((0:ℚ) ≤ 1/2) ∧ ((0:ℚ) ≤ 1/4) ∧ ((1/4 : ℚ) * 2 ≤ 1) ∧
    0 ≤ bloomStep (1/2) true (1/4) ∧ bloomStep (1/2) true (1/4) ≤ 1 ∧
    0 ≤ formStep (1/2) false (1/4) ∧ formStep (1/2) false (1/4) ≤ 1 := by
  have H := smoother_monotone_bounded (1/2) (1/2) (1/4) true false
    (by norm_num) (by norm_num) (by norm_num) (by norm_num)
    (by norm_num) (by norm_num)
  exact ⟨by norm_num, by norm_num, by norm_num,
    H.2.2.1, H.2.2.2.1, H.2.2.2.2.2.2.1, H.2.2.2.2.2.2.2⟩

/-- C2 (counterexample): at `delta = 1` the frame update disagrees with the
update rule of the claim, which clamps the interpolation factor at 1: the
code produces 2 where the claimed rule produces 1. -/
theorem bloom_step_ne_spec_clamped_cex :
    bloomStep 0 true 1 ≠ bloomStepSpec 0 true 1 := by
  norm_num [bloomStep, bloomStepSpec, lerpQ, bloomTarget]

/-- C2 (amended): each frame updates the scalars by exactly
`bloomAmount += (target_bloom - bloomAmount) * (delta * 2.0)` and
`formAmount += (target_form - formAmount) * (delta * 1.5)`, the targets
being the classifier booleans cast to 0/1; the interpolation factor is not
clamped at 1. -/
theorem smoother_update_formula (x dt : ℚ) (b p : Bool) :
    bloomStep x b dt = x + (bloomTarget b - x) * (dt * 2) ∧
    formStep x p dt = x + (formTarget p - x) * (dt * (3/2)) := by
  unfold bloomStep formStep lerpQ
  constructor <;> ring

/-! ## C4: the open-hand classifier -/

/-- Squared distances are non-negative. -/
lemma sqDist_nonneg (p q : Landmark) : 0 ≤ sqDist p q := by
  unfold sqDist
  positivity

/-- Because square roots preserve strict order on non-negative inputs, the
extension test of the classifier coincides with the comparison of squared
distances. -/
lemma fingerExtended_iff_sqDist (lm : Hand) (i : Fin 4) :
    fingerExtended lm i ↔
      sqDist (lm 0) (lm (fingerPips i)) < sqDist (lm 0) (lm (fingerTips i)) := by
  unfold fingerExtended dist3
  rw [gt_iff_lt,
    Real.sqrt_lt_sqrt_iff (by exact_mod_cast sqDist_nonneg (lm 0) (lm (fingerPips i)))]
  exact_mod_cast Iff.rfl

/-- The fixture `lmOpen3` has exactly three extended fingers. -/
lemma extendedCount_lmOpen3 : extendedCount lmOpen3 = 3 := by
  have h0 : fingerExtended lmOpen3 0 := by
    rw [fingerExtended_iff_sqDist]
    show sqDist ⟨0, 0, 0⟩ ⟨1, 0, 0⟩ < sqDist ⟨0, 0, 0⟩ ⟨2, 0, 0⟩
    norm_num [sqDist]
  have h1 : fingerExtended lmOpen3 1 := by
    rw [fingerExtended_iff_sqDist]
    show sqDist ⟨0, 0, 0⟩ ⟨1, 0, 0⟩ < sqDist ⟨0, 0, 0⟩ ⟨2, 0, 0⟩
    norm_num [sqDist]
  have h2 : fingerExtended lmOpen3 2 := by
    rw [fingerExtended_iff_sqDist]
    show sqDist ⟨0, 0, 0⟩ ⟨1, 0, 0⟩ < sqDist ⟨0, 0, 0⟩ ⟨2, 0, 0⟩
    norm_num [sqDist]
  have h3 : ¬ fingerExtended lmOpen3 3 := by
    rw [fingerExtended_iff_sqDist]
    show ¬ sqDist ⟨0, 0, 0⟩ ⟨2, 0, 0⟩ < sqDist ⟨0, 0, 0⟩ ⟨1, 0, 0⟩
    norm_num [sqDist]
  unfold extendedCount
  rw [Fin.sum_univ_four, if_pos h0, if_pos h1, if_pos h2, if_neg h3]

/-- The fixture `lmOpen2` has exactly two extended fingers. -/
lemma extendedCount_lmOpen2 : extendedCount lmOpen2 = 2 := by
  have h0 : fingerExtended lmOpen2 0 := by
    rw [fingerExtended_iff_sqDist]
    show sqDist ⟨0, 0, 0⟩ ⟨1, 0, 0⟩ < sqDist ⟨0, 0, 0⟩ ⟨2, 0, 0⟩
    norm_num [sqDist]
  have h1 : fingerExtended lmOpen2 1 := by
    rw [fingerExtended_iff_sqDist]
    show sqDist ⟨0, 0, 0⟩ ⟨1, 0, 0⟩ < sqDist ⟨0, 0, 0⟩ ⟨2, 0, 0⟩
    norm_num [sqDist]
  have h2 : ¬ fingerExtended lmOpen2 2 := by
    rw [fingerExtended_iff_sqDist]
    show ¬ sqDist ⟨0, 0, 0⟩ ⟨2, 0, 0⟩ < sqDist ⟨0, 0, 0⟩ ⟨1, 0, 0⟩
    norm_num [sqDist]
  have h3 : ¬ fingerExtended lmOpen2 3 := by
    rw [fingerExtended_iff_sqDist]
    show ¬ sqDist ⟨0, 0, 0⟩ ⟨2, 0, 0⟩ < sqDist ⟨0, 0, 0⟩ ⟨1, 0, 0⟩
    norm_num [sqDist]
  unfold extendedCount
  rw [Fin.sum_univ_four, if_pos h0, if_pos h1, if_neg h2, if_neg h3]

/-- C4: if exactly `k` of the four tracked fingers have their tip further
from the wrist than their PIP joint, the classifier reports an open hand
exactly when `k ≥ 3`; in particular it reports open at `k = 3` and closed
at `k = 2`. -/
theorem hand_open_iff_three_extended (lm : Hand) (k : ℕ)
    (hk : extendedCount lm = k) :
    (isHandOpen lm ↔ 3 ≤ k) ∧
    (k = 3 → isHandOpen lm) ∧
    (k = 2 → ¬ isHandOpen lm) := by
  subst hk
  refine ⟨Iff.rfl, fun h => ?_, fun h => ?_⟩
  · unfold isHandOpen; omega
  · unfold isHandOpen; omega

/-- C4 (witness): the classifier is open on the three-finger fixture and
closed on the two-finger fixture. -/
theorem hand_open_iff_three_extended_witness :
    isHandOpen lmOpen3 ∧ ¬ isHandOpen lmOpen2 :=
  ⟨(hand_open_iff_three_extended lmOpen3 3 extendedCount_lmOpen3).2.1 rfl,
   (hand_open_iff_three_extended lmOpen2 2 extendedCount_lmOpen2).2.2 rfl⟩

/-! ## C8: timestamp-gated re-inference -/

/-- C8: on a tick where the landmarker is loaded and the video is ready,
the detector runs exactly when the current video timestamp differs from the
recorded one; on an unchanged timestamp the whole tracker state — including
the two emitted signals — is left untouched. -/
theorem predict_skips_unchanged_timestamp (s : TrackerState) (inp : FrameInput)
    (hready : inp.ready = true) :
    ((predictStep s inp).2 = true ↔ inp.currentTime ≠ s.lastVideoTime) ∧
    (inp.currentTime = s.lastVideoTime → (predictStep s inp).1 = s) := by
  by_cases h : inp.currentTime = s.lastVideoTime
  · simp [predictStep, hready, h]
  · cases hd : inp.detection <;> simp [predictStep, hready, h, hd]

/-- C8 (witness): a ready tick whose timestamp equals the recorded one
neither infers nor changes the emitted signals. -/
theorem predict_skips_unchanged_timestamp_witness :
    (predictStep ⟨0, true, true, true⟩ ⟨true, 0, none⟩).1 =
      (⟨0, true, true, true⟩ : TrackerState) ∧
    (predictStep ⟨0, true, true, true⟩ ⟨true, 0, none⟩).2 ≠ true := by
  have H := predict_skips_unchanged_timestamp
    ⟨0, true, true, true⟩ ⟨true, 0, none⟩ rfl
  exact ⟨H.2 rfl, fun h => (H.1.mp h) rfl⟩

/-! ## C5: maxOpenAngle grows with the layer index -/

/-- The returned angle of the petal surface function, spelled out. -/
lemma calculatePetalShape_snd (u v : ℝ) (L T : ℕ) :
    (calculatePetalShape u v L T).2 =
      0.2 + ((L : ℝ) / (T : ℝ)) ^ (1.5 : ℝ) * 1.5 := rfl

/-- C5: for layer indices `i ≤ j` inside the six-layer table, the
`maxOpenAngle` computed by the petal surface function at layer `i` is at
most the one computed at layer `j`, whatever the surface coordinates. -/
theorem maxOpenAngle_monotone (u v u2 v2 : ℝ) (i j : ℕ)
    (hij : i ≤ j) (hj : j < layersDef.length) :
    (calculatePetalShape u v i layersDef.length).2 ≤
      (calculatePetalShape u2 v2 j layersDef.length).2 := by
  rw [calculatePetalShape_snd, calculatePetalShape_snd]
  have hT : (0 : ℝ) < (layersDef.length : ℝ) := by norm_num [layersDef]
  have hbase : (i : ℝ) / (layersDef.length : ℝ) ≤ (j : ℝ) / (layersDef.length : ℝ) :=
    div_le_div_of_nonneg_right (Nat.cast_le.mpr hij) hT.le
  have h0 : (0 : ℝ) ≤ (i : ℝ) / (layersDef.length : ℝ) := by positivity
  have hr := Real.rpow_le_rpow h0 hbase (by norm_num : (0:ℝ) ≤ 1.5)
  nlinarith [hr]

/-- C5 (witness): the innermost layer opens no wider than the outermost. -/
theorem maxOpenAngle_monotone_witness :
    (calculatePetalShape 0 0 0 layersDef.length).2 ≤
      (calculatePetalShape 0 0 5 layersDef.length).2 :=
  maxOpenAngle_monotone 0 0 0 0 0 5 (by norm_num) (by norm_num [layersDef])

/-! ## Generator membership helpers -/

/-- The `aInfo.y` slot of a petal particle is the angle returned by the
petal surface function for its layer. -/
lemma mkPetalParticle_infoY (n : ℕ) (b : ColorQ) (r : ℕ → ℚ) (L p v i : ℕ) :
    (mkPetalParticle n b r L p v i).info.2.1 =
      0.2 + ((L : ℝ) / (layersDef.length : ℝ)) ^ (1.5 : ℝ) * 1.5 := rfl

/-- The `aInfo.y` slot of an aura particle is the sentinel `-1.0`. -/
lemma mkAuraParticle_infoY (n : ℕ) (b : ColorQ) (r : ℕ → ℚ) (i : ℕ) :
    (mkAuraParticle n b r i).info.2.1 = -1 := rfl

/-- Every member of the petal block is the loop body at in-range loop
indices. -/
lemma petalParticles_mem_elim (n : ℕ) (b : ColorQ) (r : ℕ → ℚ) (pt : Particle)
    (hmem : pt ∈ petalParticles n b r) :
    ∃ L p v i, L < layersDef.length ∧ pt = mkPetalParticle n b r L p v i := by
  unfold petalParticles at hmem
  simp only [List.mem_flatMap, List.mem_map, List.mem_range] at hmem
  obtain ⟨L, hL, p, _, v, _, i, _, rfl⟩ := hmem
  exact ⟨L, p, v, i, hL, rfl⟩

/-- The loop body at in-range loop indices is a member of the petal
block. -/
lemma mkPetalParticle_mem (n : ℕ) (b : ColorQ) (r : ℕ → ℚ) {L p v i : ℕ}
    (hL : L < layersDef.length) (hp : p < (layersDef.getD L ⟨0, 0⟩).count)
    (hv : v < 7) (hi : i < pointsPerVein n) :
    mkPetalParticle n b r L p v i ∈ petalParticles n b r := by
  unfold petalParticles
  refine List.mem_flatMap.mpr ⟨L, List.mem_range.mpr hL, ?_⟩
  refine List.mem_flatMap.mpr ⟨p, List.mem_range.mpr hp, ?_⟩
  refine List.mem_flatMap.mpr ⟨v, List.mem_range.mpr hv, ?_⟩
  exact List.mem_map.mpr ⟨i, List.mem_range.mpr hi, rfl⟩

/-- The `aInfo.y` slot of every petal particle is at least `0.2`. -/
lemma petal_infoY_ge (n : ℕ) (b : ColorQ) (r : ℕ → ℚ) (pt : Particle)
    (hmem : pt ∈ petalParticles n b r) : (0.2 : ℝ) ≤ pt.info.2.1 := by
  obtain ⟨L, p, v, i, hL, rfl⟩ := petalParticles_mem_elim n b r pt hmem
  rw [mkPetalParticle_infoY]
  have h0 : (0 : ℝ) ≤ (L : ℝ) / (layersDef.length : ℝ) := by positivity
  have := Real.rpow_nonneg h0 (1.5 : ℝ)
  nlinarith [this]

/-- The GLSL smoothstep stays inside `[0,1]`. -/
lemma smoothstepR_mem (x : ℝ) : 0 ≤ smoothstepR x ∧ smoothstepR x ≤ 1 := by
  unfold smoothstepR clampR
  set t : ℝ := max 0 (min 1 x) with ht
  have h0 : 0 ≤ t := le_max_left _ _
  have h1 : t ≤ 1 := by rw [ht]; exact max_le (by norm_num) (min_le_left _ _)
  have hsq : 0 ≤ (1 - t) ^ 2 * (1 + 2 * t) :=
    mul_nonneg (sq_nonneg _) (by linarith)
  constructor <;> nlinarith [hsq]

/-! ## C7: opening rotation of non-aura particles -/

/-- C7: for every particle of the petal block and every bloom amount in
`[0,1]`, the shader rotation angle is
`mix(maxOpenAngle * 0.15, maxOpenAngle, smoothstep(bloom))`; at bloom 0 it
equals 15 percent of `maxOpenAngle`, and it is never zero. -/
theorem petal_current_angle (n : ℕ) (base : ColorQ) (rand : ℕ → ℚ)
    (pt : Particle) (hmem : pt ∈ petalParticles n base rand)
    (bloom : ℝ) (h0 : 0 ≤ bloom) (h1 : bloom ≤ 1) :
    currentAngle pt.info.2.1 bloom =
      mixR (pt.info.2.1 * 0.15) pt.info.2.1 (smoothstepR bloom) ∧
    currentAngle pt.info.2.1 0 = 0.15 * pt.info.2.1 ∧
    currentAngle pt.info.2.1 bloom ≠ 0 := by
  have hge := petal_infoY_ge n base rand pt hmem
  obtain ⟨hc0, hc1⟩ := smoothstepR_mem bloom
  refine ⟨rfl, ?_, ?_⟩
  · norm_num [currentAngle, mixR, cycleOf, smoothstepR, clampR]
    ring
  · have hpos : 0 < currentAngle pt.info.2.1 bloom := by
      unfold currentAngle mixR cycleOf
      nlinarith [hge, hc0, hc1]
    exact ne_of_gt hpos

/-- C7 (witness): the first particle of the generation with target 693 (one
point per vein) has a nonzero opening angle at bloom one half. -/
theorem petal_current_angle_witness :
    currentAngle ((mkPetalParticle 693 base0 rand0 0 0 0 0).info.2.1) (1/2) ≠ 0 :=
  (petal_current_angle 693 base0 rand0 (mkPetalParticle 693 base0 rand0 0 0 0 0)
    (mkPetalParticle_mem 693 base0 rand0 (by norm_num [layersDef])
      (by norm_num [layersDef]) (by norm_num)
      (by norm_num [pointsPerVein, particlesPerPetal, totalPetals, layersDef]))
    (1/2) (by norm_num) (by norm_num)).2.2

/-! ## C10: the aura sentinel separates cleanly at the shader threshold -/

/-- C10: every particle of the petal block carries
`maxOpenAngle = 0.2 + layerRatio ^ 1.5 * 1.5` for its layer, hence at least
`0.2`, and fails the shader aura test with margin `0.7`; every particle of
the aura block carries exactly `-1.0` and passes the test with margin
`0.5`. -/
theorem aura_classification_margin (n : ℕ) (base : ColorQ) (rand : ℕ → ℚ) :
    (∀ pt ∈ petalParticles n base rand,
      (∃ L, L < layersDef.length ∧
        pt.info.2.1 = 0.2 + ((L : ℝ) / (layersDef.length : ℝ)) ^ (1.5 : ℝ) * 1.5) ∧
      (-0.5 : ℝ) + 0.7 ≤ pt.info.2.1 ∧ ¬ isAuraInfo pt.info.2.1) ∧
    (∀ pt ∈ auraParticles n base rand,
      pt.info.2.1 = -1 ∧ pt.info.2.1 ≤ (-0.5 : ℝ) - 0.5 ∧ isAuraInfo pt.info.2.1) := by
  constructor
  · intro pt hmem
    have hge := petal_infoY_ge n base rand pt hmem
    obtain ⟨L, p, v, i, hL, rfl⟩ := petalParticles_mem_elim n base rand pt hmem
    refine ⟨⟨L, hL, mkPetalParticle_infoY n base rand L p v i⟩, by linarith, ?_⟩
    unfold isAuraInfo
    linarith
  · intro pt hmem
    unfold auraParticles at hmem
    obtain ⟨i, _, rfl⟩ := List.mem_map.mp hmem
    rw [mkAuraParticle_infoY]
    norm_num [isAuraInfo]

/-- C10 (witness): a concrete petal particle fails the shader aura test and
a concrete aura particle passes it. -/
theorem aura_classification_margin_witness :
    ¬ isAuraInfo ((mkPetalParticle 693 base0 rand0 0 0 0 0).info.2.1) ∧
    isAuraInfo ((mkAuraParticle 693 base0 rand0 0).info.2.1) :=
  ⟨((aura_classification_margin 693 base0 rand0).1
      (mkPetalParticle 693 base0 rand0 0 0 0 0)
      (mkPetalParticle_mem 693 base0 rand0 (by norm_num [layersDef])
        (by norm_num [layersDef]) (by norm_num)
        (by norm_num [pointsPerVein, particlesPerPetal, totalPetals, layersDef]))).2.2,
   ((aura_classification_margin 693 base0 rand0).2
      (mkAuraParticle 693 base0 rand0 0)
      (List.mem_map.mpr ⟨0, List.mem_range.mpr (by norm_num [auraCount]), rfl⟩)).2.2⟩

/-! ## C3: the realized particle count -/

/-- Length of a `flatMap` over `List.range` whose blocks all have the same
length. -/
lemma length_flatMap_range {β : Type} (m c : ℕ) (f : ℕ → List β)
    (h : ∀ i, (f i).length = c) :
    ((List.range m).flatMap f).length = m * c := by
  induction m with
  | zero => simp
  | succ k ih =>
      rw [List.range_succ, List.flatMap_append, List.length_append, ih]
      simp [h, Nat.succ_mul]

/-- Each petal of layer `L` contributes `7 * pointsPerVein` particles, so a
whole layer contributes its petal count times that. -/
lemma petalLayer_length (n : ℕ) (b : ColorQ) (r : ℕ → ℚ) (L : ℕ) :
    ((List.range (layersDef.getD L ⟨0, 0⟩).count).flatMap fun p =>
      (List.range 7).flatMap fun v =>
        (List.range (pointsPerVein n)).map fun i =>
          mkPetalParticle n b r L p v i).length =
      (layersDef.getD L ⟨0, 0⟩).count * (7 * pointsPerVein n) := by
  apply length_flatMap_range
  intro p
  apply length_flatMap_range
  intro v
  simp

/-- The petal block realizes exactly the per-layer sum
`petals * veins * pointsPerVein`. -/
lemma petalParticles_length (n : ℕ) (b : ColorQ) (r : ℕ → ℚ) :
    (petalParticles n b r).length =
      (layersDef.map (fun l => l.count * (7 * pointsPerVein n))).sum := by
  unfold petalParticles
  rw [List.length_flatMap]
  simp only [Function.comp_def]
  have hlen : (List.range layersDef.length).map
      (fun L => ((List.range (layersDef.getD L ⟨0, 0⟩).count).flatMap fun p =>
        (List.range 7).flatMap fun v =>
          (List.range (pointsPerVein n)).map fun i =>
            mkPetalParticle n b r L p v i).length) =
      (List.range layersDef.length).map
        (fun L => (layersDef.getD L ⟨0, 0⟩).count * (7 * pointsPerVein n)) :=
    List.map_congr_left fun L _ => petalLayer_length n b r L
  rw [hlen]
  show ((List.range 6).map _).sum = _
  rw [show List.range 6 = [0, 1, 2, 3, 4, 5] from rfl]
  simp [layersDef]

/-- The per-layer sum collapses to `totalPetals * (7 * pointsPerVein)`. -/
lemma layer_sum_eq (m : ℕ) :
    (layersDef.map (fun l => l.count * m)).sum = totalPetals * m := by
  simp [layersDef, totalPetals]
  ring

/-- The petal block never exceeds the configured target: two floor
divisions only lose particles. -/
lemma petal_sum_le (n : ℕ) :
    (layersDef.map (fun l => l.count * (7 * pointsPerVein n))).sum ≤ n := by
  rw [layer_sum_eq]
  unfold pointsPerVein particlesPerPetal
  have h1 : particlesPerPetal n / 7 * 7 ≤ particlesPerPetal n :=
    Nat.div_mul_le_self _ 7
  have h2 : n / totalPetals * totalPetals ≤ n := Nat.div_mul_le_self _ _
  have h99 : totalPetals = 99 := rfl
  unfold particlesPerPetal at h1
  calc totalPetals * (7 * (n / totalPetals / 7))
      = (n / totalPetals / 7 * 7) * totalPetals := by ring
    _ ≤ (n / totalPetals) * totalPetals := Nat.mul_le_mul_right _ h1
    _ ≤ n := h2

/-- C3 (counterexample): at the startup target 80000 the generation
realizes 87695 particles, which exceeds the configured target — the aura
block pushes the total above it. -/
theorem particle_count_exceeds_target_cex :
    (generateParticles cfg80a base0 rand0).length = 87695 ∧
    80000 < (generateParticles cfg80a base0 rand0).length := by
  have hppv : pointsPerVein 80000 = 115 := by decide
  have hp : (petalParticles 80000 base0 rand0).length = 79695 := by
    rw [petalParticles_length, layer_sum_eq, hppv]
    norm_num [totalPetals, layersDef]
  have ha : (auraParticles 80000 base0 rand0).length = 8000 := by
    simp [auraParticles, auraCount]
  have hcfg : cfg80a.petalCount = 80000 := rfl
  have h : (generateParticles cfg80a base0 rand0).length = 87695 := by
    unfold generateParticles
    rw [hcfg, List.length_append, hp, ha]
  exact ⟨h, by rw [h]; norm_num⟩

/-- C3 (amended): for every configuration with a positive particle target,
the generation realizes exactly (sum over the six layers of
`petals * 7 * pointsPerVein`) plus the fixed aura count 8000, the count is
never negative, and the petal (non-aura) part never exceeds the configured
target; the total may exceed the target by up to the aura count. -/
theorem particle_count_formula (config : LotusConfig) (base : ColorQ)
    (rand : ℕ → ℚ) (hpos : 0 < config.petalCount) :
    (generateParticles config base rand).length =
      (layersDef.map
        (fun l => l.count * (7 * pointsPerVein config.petalCount))).sum +
        auraCount ∧
    0 ≤ ((generateParticles config base rand).length : ℤ) ∧
    (layersDef.map
      (fun l => l.count * (7 * pointsPerVein config.petalCount))).sum ≤
      config.petalCount := by
  refine ⟨?_, by positivity, petal_sum_le config.petalCount⟩
  unfold generateParticles
  rw [List.length_append, petalParticles_length]
  simp [auraParticles, auraCount]

/-- C3 (witness): the count identity and the petal-part bound at the
startup configuration. -/
theorem particle_count_formula_witness :
    0 < cfg80a.petalCount ∧
    (generateParticles cfg80a base0 rand0).length =
      (layersDef.map
        (fun l => l.count * (7 * pointsPerVein cfg80a.petalCount))).sum +
        auraCount ∧
    (layersDef.map
      (fun l => l.count * (7 * pointsPerVein cfg80a.petalCount))).sum ≤
      cfg80a.petalCount := by
  have H := particle_count_formula cfg80a base0 rand0 (by norm_num [cfg80a])
  exact ⟨by norm_num [cfg80a], H.1, H.2.2⟩

/-! ## C9: the generator never reads the layer-count field -/

/-- C9: two configurations that differ only in the `layers` field produce,
for the same random sequence and active color, identical particle buffers;
the generator iterates the hardcoded six-layer table with petal counts
(5, 8, 12, 18, 24, 32). -/
theorem generator_ignores_layer_count (c1 c2 : LotusConfig) (base : ColorQ)
    (rand : ℕ → ℚ)
    (hp : c1.petalCount = c2.petalCount)
    (hs : c1.particleSize = c2.particleSize)
    (hr : c1.rotationSpeed = c2.rotationSpeed)
    (hi : c1.bloomIntensity = c2.bloomIntensity) :
    generateParticles c1 base rand = generateParticles c2 base rand ∧
    layersDef.map (fun l => l.count) = [5, 8, 12, 18, 24, 32] := by
  constructor
  · unfold generateParticles
    rw [hp]
  · rfl

/-- C9 (witness): the startup configuration with layer count 4 and the same
configuration with layer count 6 generate the same buffers. -/
theorem generator_ignores_layer_count_witness :
    generateParticles cfg80a base0 rand0 = generateParticles cfg80b base0 rand0 :=
  (generator_ignores_layer_count cfg80a cfg80b base0 rand0 rfl rfl rfl rfl).1

/-! ## C6: swipe color selection -/

/-- A duplicate-free list of length at least two containing `prev` also
contains an element different from `prev`. -/
lemma exists_ne_of_nodup_two (palette : List String) (prev : String)
    (hnd : palette.Nodup) (hlen : 2 ≤ palette.length) (hmem : prev ∈ palette) :
    ∃ c ∈ palette, c ≠ prev := by
  rcases palette with _ | ⟨x, rest⟩
  · simp at hmem
  rcases rest with _ | ⟨y, t⟩
  · simp at hlen
  · have hx : x ∉ y :: t := (List.nodup_cons.mp hnd).1
    have hxy : x ≠ y := by
      intro h
      exact hx (by rw [h]; exact List.mem_cons_self y t)
    by_cases hxp : x = prev
    · exact ⟨y, List.mem_cons_of_mem x (List.mem_cons_self y t),
        fun h => hxy (by rw [hxp, h])⟩
    · exact ⟨x, List.mem_cons_self x (y :: t), hxp⟩

/-- C6: for a duplicate-free palette with at least two entries and the
current color among them, the swipe handler always picks an entry of the
palette different from the current color, and for every draw `r` in
`[0,1)` it picks position `k` of the filtered list exactly when
`r * available.length` lies in `[k, k+1)` — i.e. each remaining entry is
selected on an interval of identical length `1 / available.length`. -/
theorem swipe_excludes_current_uniform (palette : List String) (prev : String)
    (r : ℚ) (hnd : palette.Nodup) (hlen : 2 ≤ palette.length)
    (hmem : prev ∈ palette) (h0 : 0 ≤ r) (h1 : r < 1) :
    (∃ c, handleSwipe palette prev r = some c ∧ c ≠ prev ∧ c ∈ palette) ∧
    (∀ k (hk : k < (palette.filter (fun c => c ≠ prev)).length),
      (handleSwipe palette prev r =
          some ((palette.filter (fun c => c ≠ prev)).get ⟨k, hk⟩) ↔
        (k : ℚ) ≤ r * ((palette.filter (fun c => c ≠ prev)).length : ℚ) ∧
        r * ((palette.filter (fun c => c ≠ prev)).length : ℚ) < (k : ℚ) + 1)) := by
  set A := palette.filter (fun c => c ≠ prev) with hA
  obtain ⟨c0, hc0m, hc0p⟩ := exists_ne_of_nodup_two palette prev hnd hlen hmem
  have hc0A : c0 ∈ A := by
    rw [hA]
    exact List.mem_filter.mpr ⟨hc0m, by simp [hc0p]⟩
  have hApos : 0 < A.length := List.length_pos.mpr (List.ne_nil_of_mem hc0A)
  have hmQ : (0 : ℚ) < (A.length : ℚ) := by exact_mod_cast hApos
  have hrm0 : 0 ≤ r * (A.length : ℚ) := mul_nonneg h0 hmQ.le
  have hidx0 : 0 ≤ ⌊r * (A.length : ℚ)⌋ := Int.floor_nonneg.mpr hrm0
  have hrmlt : r * (A.length : ℚ) < (A.length : ℚ) := by
    calc r * (A.length : ℚ) < 1 * (A.length : ℚ) := mul_lt_mul_of_pos_right h1 hmQ
      _ = (A.length : ℚ) := one_mul _
  have hidxlt : ⌊r * (A.length : ℚ)⌋ < (A.length : ℤ) := by
    rw [Int.floor_lt]
    exact_mod_cast hrmlt
  have hk0lt : (⌊r * (A.length : ℚ)⌋).toNat < A.length := by omega
  have hhs : handleSwipe palette prev r =
      some (A.get ⟨(⌊r * (A.length : ℚ)⌋).toNat, hk0lt⟩) := by
    unfold handleSwipe
    rw [← hA, if_pos hidx0, List.getElem?_eq_getElem hk0lt]
    simp [List.get_eq_getElem]
  have hgetA : A.get ⟨(⌊r * (A.length : ℚ)⌋).toNat, hk0lt⟩ ∈ A :=
    List.get_mem A _ hk0lt
  have hgetF := List.mem_filter.mp hgetA
  refine ⟨⟨A.get ⟨_, hk0lt⟩, hhs, by simpa using hgetF.2, hgetF.1⟩, ?_⟩
  intro k hk
  rw [hhs]
  have hndA : A.Nodup := hnd.filter _
  constructor
  · intro hsome
    have hget := Option.some.inj hsome
    have hkk : (⌊r * (A.length : ℚ)⌋).toNat = k := by
      have hfin := (List.Nodup.get_inj_iff hndA).mp hget
      exact congrArg Fin.val hfin
    have hfl : ⌊r * (A.length : ℚ)⌋ = (k : ℤ) := by omega
    have hiff := Int.floor_eq_iff.mp hfl
    refine ⟨?_, ?_⟩
    · exact_mod_cast hiff.1
    · have := hiff.2
      push_cast at this
      exact this
  · rintro ⟨hle, hlt⟩
    have hfl : ⌊r * (A.length : ℚ)⌋ = (k : ℤ) := by
      rw [Int.floor_eq_iff]
      refine ⟨by exact_mod_cast hle, ?_⟩
      push_cast
      exact hlt
    have hkk : (⌊r * (A.length : ℚ)⌋).toNat = k := by omega
    exact congrArg (fun i => some (A.get i)) (Fin.ext hkk)

/-- C6 (witness): swiping away from the pink entry of the application
palette with the draw `r = 1/2` yields a different palette color. -/
theorem swipe_excludes_current_uniform_witness :
    ∃ c, handleSwipe PALETTE "#ffa6c9" (1/2) = some c ∧
      c ≠ "#ffa6c9" ∧ c ∈ PALETTE :=
  (swipe_excludes_current_uniform PALETTE "#ffa6c9" (1/2) (by decide) (by decide)
    (by decide) (by norm_num) (by norm_num)).1

end Lotus
